import Mathlib

/-!
Verification of the AATX tracking-plan validation GitHub action
(`src/index.js`) against its natural-language specification.

The single source file is a thin orchestration layer:
collect inputs, POST to a validation endpoint, log and report the
parsed `ValidationResult`, and optionally publish a pull-request
review.  We shallowly embed it here:

* `JSVal` models a parsed JSON/JavaScript value, used for the raw
  response body (`response.data`) and the `!result || typeof result
  !== 'object'` check of line 62.
* The structured types `Summary`, `Event`, `Implementation`,
  `Metadata`, `ValidationResult` mirror the payload shape of §3 of the
  spec; optional/absent fields are `Option`.  `decodeResult` reads that
  shape off a `JSVal` (fields of unexpected type are treated as
  absent, which agrees with the source's optional-chaining reads on
  all payloads of the documented shape).  Parsed JSON objects are
  assumed to have distinct keys.
* Effects become data: log lines (`core.info/warning/error`) are a
  `List LogEntry`, `core.setOutput` calls a `List (String × OutVal)`,
  the single `octokit.rest.pulls.createReview` call a `ReviewCall`,
  and `core.setFailed` the `failed`/`failMessage` fields of
  `RunOutcome`.  The outcomes of the two external calls (axios POST,
  createReview) are inputs of the model (`HttpOutcome`,
  `PublisherEnv`), since the program treats them as opaque.
-/

/-- A JavaScript value as produced by parsing a JSON response body. -/
inductive JSVal where
  | undefined : JSVal
  | jsNull : JSVal
  | bool (b : Bool) : JSVal
  | num (n : Int) : JSVal
  | str (s : String) : JSVal
  | arr (elems : List JSVal) : JSVal
  | obj (fields : List (String × JSVal)) : JSVal

/-- JavaScript truthiness of a value. -/
def JSVal.truthy : JSVal → Bool
  | .undefined => false
  | .jsNull => false
  | .bool b => b
  | .num n => n != 0
  | .str s => s != ""
  | .arr _ => true
  | .obj _ => true

/-- Whether `typeof v === 'object'` holds (true for `null`, arrays and
plain objects). -/
def JSVal.typeofObject : JSVal → Bool
  | .jsNull => true
  | .arr _ => true
  | .obj _ => true
  | _ => false

/-- Member access `v[k]` on an object; `undefined` when the key is
missing or the receiver is not an object. -/
def JSVal.getField : JSVal → String → JSVal
  | .obj fields, k =>
    match fields.find? (fun p => p.1 == k) with
    | some p => p.2
    | none => .undefined
  | _, _ => .undefined

/-- The check of line 62: `!result || typeof result !== 'object'`.
When it holds the action throws
`Error('Invalid response format from validation API')`. -/
def responseMalformed (result : JSVal) : Bool :=
  !result.truthy || !result.typeofObject

/-- Spec-side notion: a value that is a non-null object (an array or a
plain object).  The spec says the response must be "a non-null
object"; `responseMalformed` is the code's test. -/
def isNonNullObject : JSVal → Bool
  | .arr _ => true
  | .obj _ => true
  | _ => false

/-- One `implementation` entry of an event:
`{path: string, line: int, code?: string}`. -/
structure Implementation where
  path : String
  line : Int
  code : Option String
deriving DecidableEq, Repr

/-- One event of the validation result (§3).  `properties` holds the
`Object.keys` of the event's `properties` object, in insertion order,
when that object is present. -/
structure Event where
  name : String
  status : String
  message : Option String
  implementation : Option (List Implementation)
  properties : Option (List String)
deriving DecidableEq, Repr

/-- The `summary` object of the validation result. -/
structure Summary where
  totalEvents : Option Int
  validEvents : Option Int
  invalidEvents : Option Int
  missingEvents : Option Int
  newEvents : Option Int
deriving DecidableEq, Repr

/-- The optional `metadata` object of the validation result. -/
structure Metadata where
  validationDuration : Option Int
  agentVersion : Option String
deriving DecidableEq, Repr

/-- The parsed validation result (§3), all fields optional since the
code only checks that the response is a non-null object. -/
structure ValidationResult where
  valid : Option Bool
  summary : Option Summary
  events : Option (List Event)
  trackingPlanUpdated : Option Bool
  metadata : Option Metadata
deriving DecidableEq, Repr

def decodeBoolField (v : JSVal) (k : String) : Option Bool :=
  match v.getField k with
  | .bool b => some b
  | _ => none

def decodeIntField (v : JSVal) (k : String) : Option Int :=
  match v.getField k with
  | .num n => some n
  | _ => none

def decodeStrField (v : JSVal) (k : String) : Option String :=
  match v.getField k with
  | .str s => some s
  | _ => none

def decodeSummary (v : JSVal) : Option Summary :=
  match v.getField "summary" with
  | .obj fs =>
    some { totalEvents := decodeIntField (.obj fs) "totalEvents"
           validEvents := decodeIntField (.obj fs) "validEvents"
           invalidEvents := decodeIntField (.obj fs) "invalidEvents"
           missingEvents := decodeIntField (.obj fs) "missingEvents"
           newEvents := decodeIntField (.obj fs) "newEvents" }
  | _ => none

def decodeImplementation (v : JSVal) : Implementation :=
  { path := (decodeStrField v "path").getD ""
    line := (decodeIntField v "line").getD 0
    code := decodeStrField v "code" }

def decodeEvent (v : JSVal) : Event :=
  { name := (decodeStrField v "name").getD ""
    status := (decodeStrField v "status").getD ""
    message := decodeStrField v "message"
    implementation :=
      match v.getField "implementation" with
      | .arr xs => some (xs.map decodeImplementation)
      | _ => none
    properties :=
      match v.getField "properties" with
      | .obj fs => some (fs.map Prod.fst)
      | _ => none }

def decodeMetadata (v : JSVal) : Option Metadata :=
  match v.getField "metadata" with
  | .obj fs =>
    some { validationDuration := decodeIntField (.obj fs) "validationDuration"
           agentVersion := decodeStrField (.obj fs) "agentVersion" }
  | _ => none

/-- Reading the documented payload shape off the parsed body. -/
def decodeResult (v : JSVal) : ValidationResult :=
  { valid := decodeBoolField v "valid"
    summary := decodeSummary v
    events :=
      match v.getField "events" with
      | .arr xs => some (xs.map decodeEvent)
      | _ => none
    trackingPlanUpdated := decodeBoolField v "trackingPlanUpdated"
    metadata := decodeMetadata v }

/-- JavaScript `o || d` for an optional string read: the string when
present and truthy (non-empty), otherwise the default. -/
def jsStrOr (o : Option String) (d : String) : String :=
  match o with
  | some s => if s != "" then s else d
  | none => d

/-- `Array.prototype.join(sep)` on a list of strings. -/
def joinSep (sep : String) : List String → String
  | [] => ""
  | [x] => x
  | x :: y :: xs => x ++ sep ++ joinSep sep (y :: xs)

/-- `result.summary?.f || 0`: a summary count with the code's default. -/
def summaryCount (r : ValidationResult) (f : Summary → Option Int) : Int :=
  (r.summary.bind f).getD 0

/-- `result.events?.filter(e => e.status === s) || []` (lines 79, 101,
116, 194, 207, 220). -/
def eventsOfStatus (r : ValidationResult) (s : String) : List Event :=
  match r.events with
  | some es => es.filter (fun e => e.status == s)
  | none => []

/-- One emitted log line (`core.info` / `core.warning` / `core.error`). -/
inductive LogEntry where
  | info (msg : String) : LogEntry
  | warning (msg : String) : LogEntry
  | error (msg : String) : LogEntry
deriving DecidableEq, Repr

/-- The warnings for one invalid event (lines 83–96): numbered name,
optional error message, first implementation location with optional
trimmed code, and the property names when the `properties` object is
present and non-empty. -/
def logInvalidEventEntry (index : Nat) (event : Event) : List LogEntry :=
  [.warning ("\n" ++ toString (index + 1) ++ ". Event: " ++ event.name)]
  ++ (match event.message with
      | some m => if m != "" then [.warning ("   Error: " ++ m)] else []
      | none => [])
  ++ (match event.implementation with
      | some (impl :: _) =>
        [.warning ("   Location: " ++ impl.path ++ ":" ++ toString impl.line)]
        ++ (match impl.code with
            | some c => if c != "" then [.warning ("   Code: " ++ c.trim)] else []
            | none => [])
      | _ => [])
  ++ (match event.properties with
      | some ks =>
        if ks.length > 0 then
          [.warning ("   Required Properties: " ++ joinSep ", " ks)]
        else []
      | none => [])

/-- The warnings for one missing event (lines 105–111): numbered name,
optional note, property names; no implementation location. -/
def logMissingEventEntry (index : Nat) (event : Event) : List LogEntry :=
  [.warning ("\n" ++ toString (index + 1) ++ ". Event: " ++ event.name)]
  ++ (match event.message with
      | some m => if m != "" then [.warning ("   Note: " ++ m)] else []
      | none => [])
  ++ (match event.properties with
      | some ks =>
        if ks.length > 0 then
          [.warning ("   Required Properties: " ++ joinSep ", " ks)]
        else []
      | none => [])

/-- The info lines for one new event (lines 120–130): numbered name,
first implementation location with optional trimmed code, detected
property names; no message line. -/
def logNewEventEntry (index : Nat) (event : Event) : List LogEntry :=
  [.info ("\n" ++ toString (index + 1) ++ ". Event: " ++ event.name)]
  ++ (match event.implementation with
      | some (impl :: _) =>
        [.info ("   Location: " ++ impl.path ++ ":" ++ toString impl.line)]
        ++ (match impl.code with
            | some c => if c != "" then [.info ("   Code: " ++ c.trim)] else []
            | none => [])
      | _ => [])
  ++ (match event.properties with
      | some ks =>
        if ks.length > 0 then
          [.info ("   Detected Properties: " ++ joinSep ", " ks)]
        else []
      | none => [])

/-- `events.forEach((event, index) => ...)` accumulating log lines. -/
def logEventsFrom (f : Nat → Event → List LogEntry) : Nat → List Event → List LogEntry
  | _, [] => []
  | i, e :: es => f i e ++ logEventsFrom f (i + 1) es

/-- Lines 80–98: the invalid-events section. -/
def invalidSectionLogs (invalidEvents : List Event) : List LogEntry :=
  if invalidEvents.length > 0 then
    [.warning ("\n❌ INVALID EVENTS (" ++ toString invalidEvents.length ++ "):")]
    ++ logEventsFrom logInvalidEventEntry 0 invalidEvents
  else []

/-- Lines 102–113: the missing-events section. -/
def missingSectionLogs (missingEvents : List Event) : List LogEntry :=
  if missingEvents.length > 0 then
    [.warning ("\n⚠️ MISSING EVENTS (" ++ toString missingEvents.length ++ "):")]
    ++ logEventsFrom logMissingEventEntry 0 missingEvents
  else []

/-- Lines 117–132: the new-events section. -/
def newSectionLogs (newEvents : List Event) : List LogEntry :=
  if newEvents.length > 0 then
    [.info ("\n🆕 NEW EVENTS (" ++ toString newEvents.length ++ "):")]
    ++ logEventsFrom logNewEventEntry 0 newEvents
  else []

/-- Lines 67–76: overall validity, the five summary counts, and the
tracking-plan-updated notice. -/
def summaryLogs (result : ValidationResult) : List LogEntry :=
  [.info ("Validation completed with "
      ++ (if result.valid.getD false then "success" else "errors")),
   .info ("Total events: " ++ toString (summaryCount result Summary.totalEvents)),
   .info ("Valid events: " ++ toString (summaryCount result Summary.validEvents)),
   .info ("Invalid events: " ++ toString (summaryCount result Summary.invalidEvents)),
   .info ("Missing events: " ++ toString (summaryCount result Summary.missingEvents)),
   .info ("New events: " ++ toString (summaryCount result Summary.newEvents))]
  ++ (if result.trackingPlanUpdated.getD false then
        [.info "Tracking plan was automatically updated with new events"]
      else [])

/-- The value handed to one `core.setOutput` call.  `undefinedVal`
records that the JavaScript value passed was `undefined`. -/
inductive OutVal where
  | bool (b : Bool) : OutVal
  | int (n : Int) : OutVal
  | undefinedVal : OutVal
deriving DecidableEq, Repr

/-- Lines 135–141: the seven `core.setOutput` calls, in order.  Note
that `valid` is passed through as `result.valid` with no default,
while `tracking_plan_updated` gets `|| false` and the five counts get
`|| 0`. -/
def setOutputs (result : ValidationResult) : List (String × OutVal) :=
  [("valid", match result.valid with
             | some b => OutVal.bool b
             | none => OutVal.undefinedVal),
   ("total_events", OutVal.int (summaryCount result Summary.totalEvents)),
   ("valid_events", OutVal.int (summaryCount result Summary.validEvents)),
   ("invalid_events", OutVal.int (summaryCount result Summary.invalidEvents)),
   ("missing_events", OutVal.int (summaryCount result Summary.missingEvents)),
   ("new_events", OutVal.int (summaryCount result Summary.newEvents)),
   ("tracking_plan_updated", OutVal.bool (result.trackingPlanUpdated.getD false))]

/-- Lines 150–163: the message composed for `core.setFailed` when
`!result.valid && failOnInvalid`. -/
def failOnInvalidMessage (result : ValidationResult) : String :=
  let invalidCount := summaryCount result Summary.invalidEvents
  let missingCount := summaryCount result Summary.missingEvents
  let base := "❌ Validation failed with " ++ toString invalidCount
    ++ " invalid events and " ++ toString missingCount ++ " missing events"
  let withInvalid :=
    if invalidCount > 0 then
      base ++ "\n\nInvalid events: "
        ++ joinSep ", " ((eventsOfStatus result "invalid").map Event.name)
    else base
  let withMissing :=
    if missingCount > 0 then
      withInvalid ++ "\n\nMissing events: "
        ++ joinSep ", " ((eventsOfStatus result "missing").map Event.name)
    else withInvalid
  withMissing ++ "\n\nSee the detailed output above for specific issues and locations."

/-- One review comment `{path, line, body}` (§3 ReviewComment). -/
structure ReviewComment where
  path : String
  line : Int
  body : String
deriving DecidableEq, Repr

/-- Lines 198–202: the comment pushed for an invalid event, anchored
at its first implementation location. -/
def invalidEventComment (event : Event) (impl : Implementation) : ReviewComment :=
  { path := impl.path
    line := impl.line
    body := "❌ **Invalid Event**: `" ++ event.name ++ "`\n\n"
      ++ jsStrOr event.message "Event does not match tracking plan"
      ++ "\n\n**Required Properties**: "
      ++ (match event.properties with
          | some ks => joinSep ", " ks
          | none => "None specified") }

/-- Lines 211–215: the comment pushed for a new event, anchored at its
first implementation location. -/
def newEventComment (event : Event) (impl : Implementation) : ReviewComment :=
  { path := impl.path
    line := impl.line
    body := "🆕 **New Event**: `" ++ event.name ++ "`\n\n"
      ++ jsStrOr event.message "Event found in codebase but not in tracking plan"
      ++ "\n\n**Properties**: "
      ++ (match event.properties with
          | some ks => joinSep ", " ks
          | none => "None detected") }

/-- Lines 222–227: the single aggregate comment for all missing
events, anchored at the fixed fallback `README.md`, line 1. -/
def missingEventsComment (missingEvents : List Event) : ReviewComment :=
  { path := "README.md"
    line := 1
    body := "⚠️ **Missing Events**: The following events are defined in the tracking plan but not found in the codebase:\n\n"
      ++ joinSep ", " (missingEvents.map (fun e => "`" ++ e.name ++ "`"))
      ++ "\n\nPlease implement these events or remove them from the tracking plan." }

/-- The `for (const event of events) { if (event.implementation &&
event.implementation.length > 0) reviewComments.push(...) }` loops of
lines 195–217, pushing onto an accumulator. -/
def pushEventComments (mk : Event → Implementation → ReviewComment) :
    List Event → List ReviewComment → List ReviewComment
  | [], acc => acc
  | event :: rest, acc =>
    match event.implementation with
    | some (impl :: _) => pushEventComments mk rest (acc ++ [mk event impl])
    | _ => pushEventComments mk rest acc

/-- Lines 191–228: the full review-comment list — invalid events, then
new events, then (when any exist) the aggregate missing-events
comment. -/
def buildReviewComments (result : ValidationResult) : List ReviewComment :=
  let c1 := pushEventComments invalidEventComment (eventsOfStatus result "invalid") []
  let c2 := pushEventComments newEventComment (eventsOfStatus result "new") c1
  let missingEvents := eventsOfStatus result "missing"
  if missingEvents.length > 0 then c2 ++ [missingEventsComment missingEvents]
  else c2

/-- Lines 232–244: the markdown summary body of the review. -/
def reviewBody (result : ValidationResult) : String :=
  "## AATX Tracking Plan Validation Review\n      \n- **Total Events**: "
  ++ toString (summaryCount result Summary.totalEvents)
  ++ "\n- **Valid Events**: " ++ toString (summaryCount result Summary.validEvents)
  ++ "\n- **Invalid Events**: " ++ toString (summaryCount result Summary.invalidEvents)
  ++ "\n- **Missing Events**: " ++ toString (summaryCount result Summary.missingEvents)
  ++ "\n- **New Events**: " ++ toString (summaryCount result Summary.newEvents)
  ++ "\n\n"
  ++ (if result.trackingPlanUpdated.getD false then
        "✅ Tracking plan was automatically updated with new events"
      else "")
  ++ "\n"
  ++ (if !(result.valid.getD false) then
        "❌ Some events do not match the tracking plan"
      else "✅ All events match the tracking plan")
  ++ "\n\n"
  ++ (match result.metadata.bind Metadata.validationDuration with
      | some d =>
        if d != 0 then "\n**Validation Duration**: " ++ toString d ++ "ms" else ""
      | none => "")
  ++ "\n"
  ++ (match result.metadata.bind Metadata.agentVersion with
      | some s => if s != "" then "\n**Agent Version**: " ++ s else ""
      | none => "")

/-- Line 251: the review disposition,
`result.summary?.invalidEvents > 0 ? "REQUEST_CHANGES" : "COMMENT"`. -/
def reviewDisposition (result : ValidationResult) : String :=
  if (result.summary.bind Summary.invalidEvents).getD 0 > 0 then "REQUEST_CHANGES"
  else "COMMENT"

/-- The parameters of the one `octokit.rest.pulls.createReview` call
(lines 246–253). -/
structure ReviewCall where
  owner : String
  repo : String
  pull_number : Int
  body : String
  event : String
  comments : List ReviewComment
deriving DecidableEq, Repr

/-- The error thrown by a failing `createReview` call:
`error.message`, and `JSON.stringify(error.response.data)` when the
error has a response attached. -/
structure ReviewApiError where
  message : String
  responseData : Option String
deriving DecidableEq, Repr

/-- The publisher's environment: the ambient `GITHUB_TOKEN`, and
whether the `createReview` call, if made, fails. -/
structure PublisherEnv where
  githubToken : Option String
  createReviewError : Option ReviewApiError
deriving DecidableEq, Repr

/-- What `addPrReviewComments` did: its log lines and the outbound
repository-hosting API calls it made. -/
structure PublisherResult where
  logs : List LogEntry
  calls : List ReviewCall
deriving DecidableEq, Repr

/-- Lines 177–266, `addPrReviewComments(result)`.  The surrounding
`try/catch` means no error escapes: a failing `createReview` call is
logged as a warning (plus an error line when the remote attached a
response body) and swallowed. -/
def addPrReviewComments (env : PublisherEnv) (owner repo : String)
    (prNumber : Int) (result : ValidationResult) : PublisherResult :=
  match env.githubToken with
  | none =>
    { logs := [.warning "GITHUB_TOKEN not available, skipping PR review comments"]
      calls := [] }
  | some _ =>
    let reviewComments := buildReviewComments result
    if reviewComments.length > 0 then
      let call : ReviewCall :=
        { owner := owner
          repo := repo
          pull_number := prNumber
          body := reviewBody result
          event := reviewDisposition result
          comments := reviewComments }
      match env.createReviewError with
      | none =>
        { logs := [.info ("Created PR review with "
              ++ toString reviewComments.length ++ " comments")]
          calls := [call] }
      | some err =>
        { logs := [.warning ("Failed to add PR review comments: " ++ err.message)]
            ++ (match err.responseData with
                | some d => [.error ("GitHub API response: " ++ d)]
                | none => [])
          calls := [call] }
    else
      { logs := [.info "No review comments to add"]
        calls := [] }

/-- The collected action inputs (lines 8–16). -/
structure ActionInputs where
  apiKey : String
  trackingPlanId : String
  apiUrl : String
  holistic : Bool
  delta : Bool
  autoUpdate : Bool
  overwrite : Bool
  comment : Bool
  failOnInvalid : Bool
deriving DecidableEq, Repr

/-- Input collection either yields the inputs or throws (a required
input missing, or a boolean input that does not parse); the thrown
error's message is carried. -/
inductive InputsOutcome where
  | ok (inputs : ActionInputs) : InputsOutcome
  | fail (message : String) : InputsOutcome

/-- `context.payload.pull_request`, when the trigger is a PR. -/
structure PullRequestPayload where
  number : Int
  headSha : String
  baseSha : String
deriving DecidableEq, Repr

/-- The ambient GitHub context (lines 19–31). -/
structure GitHubContext where
  owner : String
  repo : String
  pull_request : Option PullRequestPayload
deriving DecidableEq, Repr

/-- `error.response` of a failed axios call: the HTTP status and
`JSON.stringify(error.response.data)`. -/
structure ErrorResponse where
  status : Int
  data : String
deriving DecidableEq, Repr

/-- The outcome of the single `axios.post` (line 51): either it throws
(transport failure or non-success HTTP status), or it returns and
`response.data` is the parsed body. -/
inductive HttpOutcome where
  | fail (message : String) (response : Option ErrorResponse) : HttpOutcome
  | ok (body : JSVal) : HttpOutcome

/-- Everything observable about one run: log lines in order, the
`core.setOutput` calls, whether `addPrReviewComments` was invoked, the
outbound review calls, and whether/with what message `core.setFailed`
was called. -/
structure RunOutcome where
  logs : List LogEntry
  outputs : List (String × OutVal)
  publisherInvoked : Bool
  reviewCalls : List ReviewCall
  failed : Bool
  failMessage : Option String
deriving DecidableEq, Repr

/-- Line 48: the endpoint string. -/
def validationEndpoint (apiUrl : String) : String :=
  apiUrl ++ "/api/github-action/validate"

/-- Line 49: the pre-call info line. -/
def preCallLogs (inputs : ActionInputs) : List LogEntry :=
  [.info ("Calling validation endpoint: " ++ validationEndpoint inputs.apiUrl)]

/-- The outcome when the response body fails the line-62 check: the
thrown `Error('Invalid response format from validation API')` reaches
the top-level catch before any result logging, output setting or
review publishing. -/
def malformedOutcome (inputs : ActionInputs) : RunOutcome :=
  { logs := preCallLogs inputs
    outputs := []
    publisherInvoked := false
    reviewCalls := []
    failed := true
    failMessage := some "Action failed: Invalid response format from validation API" }

/-- Lines 67–166: processing of a well-parsed result — report logs,
the seven outputs, the conditional publisher invocation (line 144:
`if (comment && context.payload.pull_request)`), and the conditional
`core.setFailed` (line 149: `if (!result.valid && failOnInvalid)`). -/
def processSuccess (inputs : ActionInputs) (ctx : GitHubContext)
    (penv : PublisherEnv) (result : ValidationResult) : RunOutcome :=
  let invalidEvents := eventsOfStatus result "invalid"
  let missingEvents := eventsOfStatus result "missing"
  let newEvents := eventsOfStatus result "new"
  let reportLogs := summaryLogs result
    ++ invalidSectionLogs invalidEvents
    ++ missingSectionLogs missingEvents
    ++ newSectionLogs newEvents
  let pub : PublisherResult :=
    match inputs.comment, ctx.pull_request with
    | true, some pr => addPrReviewComments penv ctx.owner ctx.repo pr.number result
    | _, _ => { logs := [], calls := [] }
  let shouldFail := !(result.valid.getD false) && inputs.failOnInvalid
  { logs := reportLogs ++ pub.logs
    outputs := setOutputs result
    publisherInvoked := inputs.comment && ctx.pull_request.isSome
    reviewCalls := pub.calls
    failed := shouldFail
    failMessage := if shouldFail then some (failOnInvalidMessage result) else none }

/-- The whole `run()` (lines 5–175).  Any error thrown inside the
`try` (input collection, the axios call, the malformed-response check)
reaches the catch of line 168: `core.setFailed` with the message
prefixed by `Action failed: `, plus two `core.error` lines when the
error carries a response. -/
def run (inputs : InputsOutcome) (ctx : GitHubContext)
    (http : HttpOutcome) (penv : PublisherEnv) : RunOutcome :=
  match inputs with
  | .fail msg =>
    { logs := []
      outputs := []
      publisherInvoked := false
      reviewCalls := []
      failed := true
      failMessage := some ("Action failed: " ++ msg) }
  | .ok inp =>
    match http with
    | .fail msg resp =>
      { logs := preCallLogs inp
          ++ (match resp with
              | some r =>
                [.error ("Response status: " ++ toString r.status),
                 .error ("Response data: " ++ r.data)]
              | none => [])
        outputs := []
        publisherInvoked := false
        reviewCalls := []
        failed := true
        failMessage := some ("Action failed: " ++ msg) }
    | .ok body =>
      if responseMalformed body then malformedOutcome inp
      else
        let o := processSuccess inp ctx penv (decodeResult body)
        { o with logs := preCallLogs inp ++ o.logs }

theorem strAppend_assoc (a b c : String) : a ++ b ++ c = a ++ (b ++ c) := by
  cases a with
  | mk la =>
    cases b with
    | mk lb =>
      cases c with
      | mk lc =>
        show String.mk ((la ++ lb) ++ lc) = String.mk (la ++ (lb ++ lc))
        rw [List.append_assoc]

theorem strAppend_empty (x : String) : (x ++ "" : String) = x := by
  cases x with
  | mk lx =>
    show String.mk (lx ++ []) = String.mk lx
    rw [List.append_nil]

/-- `sub` occurs as a contiguous substring of `s`. -/
def strContains (s sub : String) : Prop :=
  ∃ p q : String, s = p ++ (sub ++ q)

theorem strContains_self (a : String) : strContains a a :=
  ⟨"", "", by rw [strAppend_empty]; rfl⟩

theorem strContains_appendLeft {a sub : String} (b : String)
    (h : strContains a sub) : strContains (a ++ b) sub := by
  obtain ⟨p, q, hpq⟩ := h
  exact ⟨p, q ++ b, by rw [hpq, strAppend_assoc, strAppend_assoc]⟩

theorem strContains_appendRight {b sub : String} (a : String)
    (h : strContains b sub) : strContains (a ++ b) sub := by
  obtain ⟨p, q, hpq⟩ := h
  exact ⟨a ++ p, q, by rw [hpq, strAppend_assoc]⟩

theorem joinSep_contains_of_mem (sep x : String) :
    ∀ l : List String, x ∈ l → strContains (joinSep sep l) x := by
  intro l
  induction l with
  | nil => intro h; cases h
  | cons a t ih =>
    intro h
    cases t with
    | nil =>
      rcases List.mem_singleton.mp h with rfl
      exact strContains_self x
    | cons b t2 =>
      rcases List.mem_cons.mp h with rfl | hmem
      · show strContains (x ++ sep ++ joinSep sep (b :: t2)) x
        exact strContains_appendLeft _ (strContains_appendLeft _ (strContains_self x))
      · show strContains (a ++ sep ++ joinSep sep (b :: t2)) x
        exact strContains_appendRight _ (ih hmem)

/-- The first implementation location of an event, when it has one. -/
def firstImpl (e : Event) : Option Implementation :=
  match e.implementation with
  | some (impl :: _) => some impl
  | _ => none

theorem pushEventComments_eq (mk : Event → Implementation → ReviewComment) :
    ∀ (events : List Event) (acc : List ReviewComment),
      pushEventComments mk events acc
        = acc ++ events.filterMap (fun e => (firstImpl e).map (mk e)) := by
  intro events
  induction events with
  | nil => intro acc; simp [pushEventComments]
  | cons e rest ih =>
    intro acc
    show pushEventComments mk (e :: rest) acc = _
    rw [pushEventComments]
    rcases himpl : e.implementation with _ | ⟨_ | ⟨impl, tl⟩⟩
    · simp only [ih, List.filterMap_cons, firstImpl, himpl]
      rfl
    · simp only [ih, List.filterMap_cons, firstImpl, himpl]
      rfl
    · simp only [ih, List.filterMap_cons, firstImpl, himpl, List.append_assoc,
        List.singleton_append]
      rfl

theorem buildReviewComments_closed (r : ValidationResult) :
    buildReviewComments r
      = (eventsOfStatus r "invalid").filterMap
          (fun e => (firstImpl e).map (invalidEventComment e))
        ++ (eventsOfStatus r "new").filterMap
          (fun e => (firstImpl e).map (newEventComment e))
        ++ (if (eventsOfStatus r "missing").length > 0
            then [missingEventsComment (eventsOfStatus r "missing")] else []) := by
  show (if (eventsOfStatus r "missing").length > 0 then _ ++ [_] else _) = _
  rw [pushEventComments_eq, pushEventComments_eq]
  by_cases h : (eventsOfStatus r "missing").length > 0
  · simp [h]
  · simp [h]

theorem responseMalformed_eq (v : JSVal) :
    responseMalformed v = !(isNonNullObject v) := by
  cases v <;> simp [responseMalformed, isNonNullObject, JSVal.truthy, JSVal.typeofObject]

theorem run_ok_malformed (i : ActionInputs) (ctx : GitHubContext)
    (penv : PublisherEnv) (body : JSVal) (h : isNonNullObject body = false) :
    run (.ok i) ctx (.ok body) penv = malformedOutcome i := by
  have hm : responseMalformed body = true := by rw [responseMalformed_eq, h]; rfl
  simp [run, hm]

theorem run_ok_failed (i : ActionInputs) (ctx : GitHubContext)
    (penv : PublisherEnv) (body : JSVal) (h : isNonNullObject body = true) :
    (run (.ok i) ctx (.ok body) penv).failed
      = (!((decodeResult body).valid.getD false) && i.failOnInvalid) := by
  have hm : responseMalformed body = false := by rw [responseMalformed_eq, h]; rfl
  simp [run, hm, processSuccess]

theorem run_ok_publisherInvoked (i : ActionInputs) (ctx : GitHubContext)
    (penv : PublisherEnv) (body : JSVal) (h : isNonNullObject body = true) :
    (run (.ok i) ctx (.ok body) penv).publisherInvoked
      = (i.comment && ctx.pull_request.isSome) := by
  have hm : responseMalformed body = false := by rw [responseMalformed_eq, h]; rfl
  simp [run, hm, processSuccess]

theorem run_ok_outputs (i : ActionInputs) (ctx : GitHubContext)
    (penv : PublisherEnv) (body : JSVal) (h : isNonNullObject body = true) :
    (run (.ok i) ctx (.ok body) penv).outputs = setOutputs (decodeResult body) := by
  have hm : responseMalformed body = false := by rw [responseMalformed_eq, h]; rfl
  simp [run, hm, processSuccess]

theorem processSuccess_no_pr (i : ActionInputs) (ctx : GitHubContext)
    (penv : PublisherEnv) (r : ValidationResult) (h : ctx.pull_request = none) :
    (processSuccess i ctx penv r).reviewCalls = [] := by
  cases hc : i.comment <;> simp [processSuccess, h, hc]

theorem run_reviewCalls_no_pr (inputs : InputsOutcome) (ctx : GitHubContext)
    (http : HttpOutcome) (penv : PublisherEnv) (h : ctx.pull_request = none) :
    (run inputs ctx http penv).reviewCalls = [] := by
  cases inputs with
  | fail m => rfl
  | ok i =>
    cases http with
    | fail msg resp => rfl
    | ok body =>
      cases hb : responseMalformed body
      · simp only [run, hb, Bool.false_eq_true, if_false]
        exact processSuccess_no_pr i ctx penv _ h
      · simp [run, hb, malformedOutcome]

-- Concrete fixtures used by witnesses and counterexamples.

def inpW : ActionInputs :=
  { apiKey := "key", trackingPlanId := "tp_1", apiUrl := "https://api.example.com"
    holistic := false, delta := false, autoUpdate := false, overwrite := false
    comment := true, failOnInvalid := true }

def ctxW : GitHubContext :=
  { owner := "acme", repo := "shop"
    pull_request := some { number := 7, headSha := "h", baseSha := "b" } }

def penvW : PublisherEnv := { githubToken := some "ghtoken", createReviewError := none }

def penvNoToken : PublisherEnv := { githubToken := none, createReviewError := none }

def bodyW : JSVal := .obj [("valid", .bool false)]

def emptyResult : ValidationResult :=
  { valid := none, summary := none, events := none
    trackingPlanUpdated := none, metadata := none }

/-- Claim C1, as stated: the seven outputs with the numeric fields
defaulting to 0 and BOTH boolean fields — `valid` included — defaulting
to false when absent from the payload. -/
def outputsClaimedC1 (result : ValidationResult) : List (String × OutVal) :=
  [("valid", OutVal.bool (result.valid.getD false)),
   ("total_events", OutVal.int (summaryCount result Summary.totalEvents)),
   ("valid_events", OutVal.int (summaryCount result Summary.validEvents)),
   ("invalid_events", OutVal.int (summaryCount result Summary.invalidEvents)),
   ("missing_events", OutVal.int (summaryCount result Summary.missingEvents)),
   ("new_events", OutVal.int (summaryCount result Summary.newEvents)),
   ("tracking_plan_updated", OutVal.bool (result.trackingPlanUpdated.getD false))]

/-- C1, counterexample: on a payload with no `valid` field the code
passes `undefined` through to `core.setOutput('valid', ...)` (line 135
has no default), so the outputs are not the claimed ones with `valid`
defaulting to false. -/
theorem claim_C1_counterexample :
    setOutputs emptyResult ≠ outputsClaimedC1 emptyResult := by decide

/-- C1, amended: the Result Reporter sets exactly the seven named
outputs; the five numeric fields default to 0 and
`tracking_plan_updated` defaults to false when absent, while `valid`
is passed through unchanged (an absent `valid` yields an undefined
output value, not false). -/
theorem claim_C1 (r : ValidationResult) :
    (setOutputs r).map Prod.fst
      = ["valid", "total_events", "valid_events", "invalid_events",
         "missing_events", "new_events", "tracking_plan_updated"]
    ∧ (setOutputs r).lookup "valid"
        = some (match r.valid with
                | some b => OutVal.bool b
                | none => OutVal.undefinedVal)
    ∧ (setOutputs r).lookup "total_events"
        = some (OutVal.int ((r.summary.bind Summary.totalEvents).getD 0))
    ∧ (setOutputs r).lookup "valid_events"
        = some (OutVal.int ((r.summary.bind Summary.validEvents).getD 0))
    ∧ (setOutputs r).lookup "invalid_events"
        = some (OutVal.int ((r.summary.bind Summary.invalidEvents).getD 0))
    ∧ (setOutputs r).lookup "missing_events"
        = some (OutVal.int ((r.summary.bind Summary.missingEvents).getD 0))
    ∧ (setOutputs r).lookup "new_events"
        = some (OutVal.int ((r.summary.bind Summary.newEvents).getD 0))
    ∧ (setOutputs r).lookup "tracking_plan_updated"
        = some (OutVal.bool (r.trackingPlanUpdated.getD false)) :=
  ⟨rfl, rfl, rfl, rfl, rfl, rfl, rfl, rfl⟩

/-- C2: the run is marked failed exactly when input collection fails,
the validation call fails, the body is malformed, or `fail-on-invalid`
is true and `result.valid` is false; the publisher environment (and
hence any review-publishing failure) never affects the exit status. -/
theorem claim_C2 (m msg : String) (i : ActionInputs) (ctx : GitHubContext)
    (resp : Option ErrorResponse) (http : HttpOutcome) (body : JSVal) (b : Bool)
    (penv penv2 : PublisherEnv) :
    ((run (.fail m) ctx http penv).failed = true)
    ∧ ((run (.ok i) ctx (.fail msg resp) penv).failed = true)
    ∧ (isNonNullObject body = false → (run (.ok i) ctx (.ok body) penv).failed = true)
    ∧ ((decodeResult body).valid = some b →
        (run (.ok i) ctx (.ok body) penv).failed = (!b && i.failOnInvalid))
    ∧ ((run (.ok i) ctx (.ok body) penv).failed
        = (run (.ok i) ctx (.ok body) penv2).failed) := by
  refine ⟨rfl, rfl, ?_, ?_, ?_⟩
  · intro h
    rw [run_ok_malformed i ctx penv body h]
    rfl
  · intro hb
    have hobj : isNonNullObject body = true := by
      cases body <;>
        first
          | rfl
          | simp [decodeResult, decodeBoolField, JSVal.getField] at hb
    rw [run_ok_failed i ctx penv body hobj, hb]
    rfl
  · cases hobj : isNonNullObject body
    · rw [run_ok_malformed i ctx penv body hobj, run_ok_malformed i ctx penv2 body hobj]
    · rw [run_ok_failed i ctx penv body hobj, run_ok_failed i ctx penv2 body hobj]

theorem claim_C2_witness :
    (run (.ok inpW) ctxW (.ok bodyW) penvW).failed = (!false && inpW.failOnInvalid) :=
  (claim_C2 "m" "n" inpW ctxW none (.ok bodyW) bodyW false penvW penvW).2.2.2.1 rfl

/-- C3: after a transport-level success, the run produces exactly the
malformed-response failure outcome — no result logging, no outputs, no
review publishing — precisely when the parsed body is not a non-null
object. -/
theorem claim_C3 (i : ActionInputs) (ctx : GitHubContext) (penv : PublisherEnv)
    (body : JSVal) :
    (run (.ok i) ctx (.ok body) penv = malformedOutcome i
      ↔ isNonNullObject body = false)
    ∧ (isNonNullObject body = false →
        (run (.ok i) ctx (.ok body) penv).logs = preCallLogs i
        ∧ (run (.ok i) ctx (.ok body) penv).outputs = []
        ∧ (run (.ok i) ctx (.ok body) penv).reviewCalls = []
        ∧ (run (.ok i) ctx (.ok body) penv).publisherInvoked = false
        ∧ (run (.ok i) ctx (.ok body) penv).failed = true
        ∧ (run (.ok i) ctx (.ok body) penv).failMessage
            = some "Action failed: Invalid response format from validation API") := by
  constructor
  · constructor
    · intro h
      cases hobj : isNonNullObject body
      · rfl
      · exfalso
        have houts : (run (.ok i) ctx (.ok body) penv).outputs
            = setOutputs (decodeResult body) := run_ok_outputs i ctx penv body hobj
        rw [h] at houts
        have hlen := congrArg List.length houts
        simp [malformedOutcome, setOutputs] at hlen
    · intro h
      exact run_ok_malformed i ctx penv body h
  · intro h
    rw [run_ok_malformed i ctx penv body h]
    exact ⟨rfl, rfl, rfl, rfl, rfl, rfl⟩

theorem claim_C3_witness :
    run (.ok inpW) ctxW (.ok (JSVal.num 0)) penvW = malformedOutcome inpW
    ∧ (run (.ok inpW) ctxW (.ok (JSVal.num 0)) penvW).outputs = [] := by
  have h := claim_C3 inpW ctxW penvW (JSVal.num 0)
  exact ⟨h.1.mpr rfl, (h.2 rfl).2.1⟩

/-- C10: when the validation call fails, or its body is rejected as
malformed, the run fails with none of the seven outputs set and the
Review Publisher never invoked, for every input configuration. -/
theorem claim_C10 (i : ActionInputs) (ctx : GitHubContext) (penv : PublisherEnv)
    (msg : String) (resp : Option ErrorResponse) (body : JSVal) :
    ((run (.ok i) ctx (.fail msg resp) penv).outputs = []
     ∧ (run (.ok i) ctx (.fail msg resp) penv).publisherInvoked = false
     ∧ (run (.ok i) ctx (.fail msg resp) penv).reviewCalls = []
     ∧ (run (.ok i) ctx (.fail msg resp) penv).failed = true)
    ∧ (isNonNullObject body = false →
        (run (.ok i) ctx (.ok body) penv).outputs = []
        ∧ (run (.ok i) ctx (.ok body) penv).publisherInvoked = false
        ∧ (run (.ok i) ctx (.ok body) penv).reviewCalls = []
        ∧ (run (.ok i) ctx (.ok body) penv).failed = true) := by
  refine ⟨⟨rfl, rfl, rfl, rfl⟩, ?_⟩
  intro h
  rw [run_ok_malformed i ctx penv body h]
  exact ⟨rfl, rfl, rfl, rfl⟩

theorem claim_C10_witness :
    (run (.ok inpW) ctxW (.ok (JSVal.str "oops")) penvW).outputs = []
    ∧ (run (.ok inpW) ctxW (.ok (JSVal.str "oops")) penvW).publisherInvoked = false
    ∧ (run (.ok inpW) ctxW (.ok (JSVal.str "oops")) penvW).reviewCalls = []
    ∧ (run (.ok inpW) ctxW (.ok (JSVal.str "oops")) penvW).failed = true :=
  (claim_C10 inpW ctxW penvW "m" none (JSVal.str "oops")).2 rfl

/-- C4, counterexample to the claim as stated: with the comment option
true and a pull-request trigger, a run whose validation call fails
never invokes the Review Publisher, so "invoked if and only if comment
∧ pull request" is false over all runs. -/
theorem claim_C4_counterexample :
    inpW.comment = true
    ∧ ctxW.pull_request.isSome = true
    ∧ (run (.ok inpW) ctxW (.fail "connect ECONNREFUSED" none) penvW).publisherInvoked
        = false :=
  ⟨rfl, rfl, rfl⟩

/-- C4, amended: once the validation call succeeds with a body passing
the non-null-object check, the Review Publisher is invoked iff the
comment option is true and the trigger is a pull request; in every
other kind of run it is not invoked; and in any run whose trigger is
not a pull request — in particular with comment true — no
repository-hosting API call is ever made. -/
theorem claim_C4 (i : ActionInputs) (ctx : GitHubContext) (penv : PublisherEnv)
    (body : JSVal) (m msg : String) (resp : Option ErrorResponse)
    (inputs : InputsOutcome) (http : HttpOutcome) :
    (isNonNullObject body = true →
      (run (.ok i) ctx (.ok body) penv).publisherInvoked
        = (i.comment && ctx.pull_request.isSome))
    ∧ (isNonNullObject body = false →
        (run (.ok i) ctx (.ok body) penv).publisherInvoked = false
        ∧ (run (.ok i) ctx (.ok body) penv).reviewCalls = [])
    ∧ ((run (.ok i) ctx (.fail msg resp) penv).publisherInvoked = false
       ∧ (run (.ok i) ctx (.fail msg resp) penv).reviewCalls = [])
    ∧ ((run (.fail m) ctx http penv).publisherInvoked = false
       ∧ (run (.fail m) ctx http penv).reviewCalls = [])
    ∧ (ctx.pull_request = none → (run inputs ctx http penv).reviewCalls = []) := by
  refine ⟨?_, ?_, ⟨rfl, rfl⟩, ⟨rfl, rfl⟩, ?_⟩
  · intro h
    exact run_ok_publisherInvoked i ctx penv body h
  · intro h
    rw [run_ok_malformed i ctx penv body h]
    exact ⟨rfl, rfl⟩
  · intro h
    exact run_reviewCalls_no_pr inputs ctx http penv h

theorem claim_C4_witness :
    (run (.ok inpW) ctxW (.ok bodyW) penvW).publisherInvoked
      = (inpW.comment && ctxW.pull_request.isSome) :=
  (claim_C4 inpW ctxW penvW bodyW "m" "n" none (.fail "m") (.fail "n" none)).1 rfl

/-- C5: when the ambient `GITHUB_TOKEN` is absent the Review Publisher
only logs a warning and makes no outbound call, and the run's failure
status is still determined solely by the fail-on-invalid policy. -/
theorem claim_C5 (env penv : PublisherEnv) (o rp : String) (n : Int)
    (r : ValidationResult) (i : ActionInputs) (ctx : GitHubContext) (body : JSVal) :
    (env.githubToken = none →
      addPrReviewComments env o rp n r
        = { logs := [.warning "GITHUB_TOKEN not available, skipping PR review comments"]
            calls := [] })
    ∧ (penv.githubToken = none → isNonNullObject body = true →
        (run (.ok i) ctx (.ok body) penv).failed
          = (!((decodeResult body).valid.getD false) && i.failOnInvalid)) := by
  constructor
  · intro h
    cases env with
    | mk tok cre =>
      simp only at h
      subst h
      rfl
  · intro _ hobj
    exact run_ok_failed i ctx penv body hobj

theorem claim_C5_witness :
    addPrReviewComments penvNoToken "acme" "shop" 7 emptyResult
      = { logs := [.warning "GITHUB_TOKEN not available, skipping PR review comments"]
          calls := [] }
    ∧ (run (.ok inpW) ctxW (.ok bodyW) penvNoToken).failed
        = (!((decodeResult bodyW).valid.getD false) && inpW.failOnInvalid) := by
  have h := claim_C5 penvNoToken penvNoToken "acme" "shop" 7 emptyResult inpW ctxW bodyW
  exact ⟨h.1 rfl, h.2 rfl rfl⟩

/-- C6: one review comment per invalid event and per new event having
at least one implementation location, anchored at the first location
only; each body carries the kind marker, the event name, the message
or the kind-specific default, and the comma-joined property names or
the kind's explicit none marker. -/
theorem claim_C6 (r : ValidationResult) (e : Event) (impl : Implementation) :
    (buildReviewComments r
      = (eventsOfStatus r "invalid").filterMap
          (fun ev => (firstImpl ev).map (invalidEventComment ev))
        ++ (eventsOfStatus r "new").filterMap
          (fun ev => (firstImpl ev).map (newEventComment ev))
        ++ (if (eventsOfStatus r "missing").length > 0
            then [missingEventsComment (eventsOfStatus r "missing")] else []))
    ∧ (invalidEventComment e impl).path = impl.path
    ∧ (invalidEventComment e impl).line = impl.line
    ∧ strContains (invalidEventComment e impl).body "❌"
    ∧ strContains (invalidEventComment e impl).body e.name
    ∧ strContains (invalidEventComment e impl).body
        (jsStrOr e.message "Event does not match tracking plan")
    ∧ strContains (invalidEventComment e impl).body
        (match e.properties with
         | some ks => joinSep ", " ks
         | none => "None specified")
    ∧ (newEventComment e impl).path = impl.path
    ∧ (newEventComment e impl).line = impl.line
    ∧ strContains (newEventComment e impl).body "🆕"
    ∧ strContains (newEventComment e impl).body e.name
    ∧ strContains (newEventComment e impl).body
        (jsStrOr e.message "Event found in codebase but not in tracking plan")
    ∧ strContains (newEventComment e impl).body
        (match e.properties with
         | some ks => joinSep ", " ks
         | none => "None detected") := by
  refine ⟨buildReviewComments_closed r, rfl, rfl, ?_, ?_, ?_, ?_, rfl, rfl, ?_, ?_, ?_, ?_⟩
  · exact strContains_appendLeft _ (strContains_appendLeft _ (strContains_appendLeft _
      (strContains_appendLeft _ (strContains_appendLeft _
        ⟨"", " **Invalid Event**: `", rfl⟩))))
  · exact strContains_appendLeft _ (strContains_appendLeft _ (strContains_appendLeft _
      (strContains_appendLeft _ (strContains_appendRight _ (strContains_self e.name)))))
  · exact strContains_appendLeft _ (strContains_appendLeft _ (strContains_appendRight _
      (strContains_self (jsStrOr e.message "Event does not match tracking plan"))))
  · exact strContains_appendRight _ (strContains_self _)
  · exact strContains_appendLeft _ (strContains_appendLeft _ (strContains_appendLeft _
      (strContains_appendLeft _ (strContains_appendLeft _
        ⟨"", " **New Event**: `", rfl⟩))))
  · exact strContains_appendLeft _ (strContains_appendLeft _ (strContains_appendLeft _
      (strContains_appendLeft _ (strContains_appendRight _ (strContains_self e.name)))))
  · exact strContains_appendLeft _ (strContains_appendLeft _ (strContains_appendRight _
      (strContains_self (jsStrOr e.message "Event found in codebase but not in tracking plan"))))
  · exact strContains_appendRight _ (strContains_self _)

/-- C7: whenever there is at least one missing event, the built
comment list ends with exactly one aggregate comment for all missing
events, anchored at the fixed fallback `README.md` line 1, whose body
lists every missing event's name. -/
theorem claim_C7 (r : ValidationResult)
    (h : (eventsOfStatus r "missing").length > 0) :
    buildReviewComments r
      = (eventsOfStatus r "invalid").filterMap
          (fun ev => (firstImpl ev).map (invalidEventComment ev))
        ++ (eventsOfStatus r "new").filterMap
          (fun ev => (firstImpl ev).map (newEventComment ev))
        ++ [missingEventsComment (eventsOfStatus r "missing")]
    ∧ (missingEventsComment (eventsOfStatus r "missing")).path = "README.md"
    ∧ (missingEventsComment (eventsOfStatus r "missing")).line = 1
    ∧ ∀ e ∈ eventsOfStatus r "missing",
        strContains (missingEventsComment (eventsOfStatus r "missing")).body
          ("`" ++ e.name ++ "`") := by
  refine ⟨?_, rfl, rfl, ?_⟩
  · rw [buildReviewComments_closed r]
    simp [h]
  · intro e he
    have hmem : ("`" ++ e.name ++ "`")
        ∈ (eventsOfStatus r "missing").map (fun ev => "`" ++ ev.name ++ "`") :=
      List.mem_map_of_mem _ he
    have hj := joinSep_contains_of_mem ", " ("`" ++ e.name ++ "`")
      ((eventsOfStatus r "missing").map (fun ev => "`" ++ ev.name ++ "`")) hmem
    exact strContains_appendLeft _ (strContains_appendRight _ hj)

def rMissing3 : ValidationResult :=
  { valid := some false
    summary := some { totalEvents := some 3, validEvents := some 0
                      invalidEvents := some 0, missingEvents := some 3
                      newEvents := some 0 }
    events := some
      [{ name := "sign_up", status := "missing", message := none
         implementation := none, properties := none },
       { name := "log_in", status := "missing", message := none
         implementation := none, properties := none },
       { name := "check_out", status := "missing", message := none
         implementation := none, properties := none }]
    trackingPlanUpdated := some false
    metadata := none }

theorem claim_C7_witness :
    buildReviewComments rMissing3 = [missingEventsComment (eventsOfStatus rMissing3 "missing")]
    ∧ ∀ e ∈ eventsOfStatus rMissing3 "missing",
        strContains (missingEventsComment (eventsOfStatus rMissing3 "missing")).body
          ("`" ++ e.name ++ "`") := by
  have h := claim_C7 rMissing3 (by decide)
  exact ⟨by rw [h.1]; rfl, h.2.2.2⟩

/-- C8: with a token present, the publisher logs and makes no call
when the comment list is empty, and otherwise makes exactly one review
call whose disposition is REQUEST_CHANGES when the summary's
invalid-events count is positive and COMMENT otherwise. -/
theorem claim_C8 (env : PublisherEnv) (t o rp : String) (n : Int)
    (r : ValidationResult) (htok : env.githubToken = some t) :
    (buildReviewComments r = [] →
      addPrReviewComments env o rp n r
        = { logs := [.info "No review comments to add"], calls := [] })
    ∧ (buildReviewComments r ≠ [] →
        ∃ call : ReviewCall,
          (addPrReviewComments env o rp n r).calls = [call]
          ∧ call.comments = buildReviewComments r
          ∧ ((r.summary.bind Summary.invalidEvents).getD 0 > 0 →
              call.event = "REQUEST_CHANGES")
          ∧ (¬ (r.summary.bind Summary.invalidEvents).getD 0 > 0 →
              call.event = "COMMENT")) := by
  constructor
  · intro h
    simp [addPrReviewComments, htok, h]
  · intro h
    have hlen : 0 < (buildReviewComments r).length := List.length_pos.mpr h
    refine ⟨{ owner := o, repo := rp, pull_number := n, body := reviewBody r
              event := reviewDisposition r, comments := buildReviewComments r },
            ?_, rfl, ?_, ?_⟩
    · rcases hcre : env.createReviewError with _ | err <;>
        simp [addPrReviewComments, htok, hcre, hlen]
    · intro hgt
      simp [reviewDisposition, hgt]
    · intro hle
      simp [reviewDisposition, hle]

theorem claim_C8_witness :
    ∃ call : ReviewCall,
      (addPrReviewComments penvW "acme" "shop" 7 rMissing3).calls = [call]
      ∧ call.comments = buildReviewComments rMissing3
      ∧ (¬ (rMissing3.summary.bind Summary.invalidEvents).getD 0 > 0 →
          call.event = "COMMENT") := by
  have h := (claim_C8 penvW "ghtoken" "acme" "shop" 7 rMissing3 rfl).2 (by decide)
  obtain ⟨call, h1, h2, _, h4⟩ := h
  exact ⟨call, h1, h2, h4⟩

/-- C9: the status partition is total and disjoint — an event of the
payload belongs to the invalid, missing or new view exactly when its
status is that string, and an event with status valid belongs to
none. -/
theorem claim_C9 (r : ValidationResult) (e : Event) (h : e ∈ r.events.getD []) :
    (e ∈ eventsOfStatus r "invalid" ↔ e.status = "invalid")
    ∧ (e ∈ eventsOfStatus r "missing" ↔ e.status = "missing")
    ∧ (e ∈ eventsOfStatus r "new" ↔ e.status = "new")
    ∧ (e.status = "valid" →
        e ∉ eventsOfStatus r "invalid"
        ∧ e ∉ eventsOfStatus r "missing"
        ∧ e ∉ eventsOfStatus r "new") := by
  cases hev : r.events with
  | none =>
    rw [hev] at h
    cases h
  | some es =>
    rw [hev] at h
    have key : ∀ s : String, e ∈ eventsOfStatus r s ↔ e.status = s := by
      intro s
      simp only [eventsOfStatus, hev, List.mem_filter, beq_iff_eq]
      exact ⟨fun hx => hx.2, fun hs => ⟨h, hs⟩⟩
    refine ⟨key "invalid", key "missing", key "new", fun hv => ⟨?_, ?_, ?_⟩⟩
    · intro hmem
      have hs := (key "invalid").mp hmem
      rw [hv] at hs
      exact absurd hs (by decide)
    · intro hmem
      have hs := (key "missing").mp hmem
      rw [hv] at hs
      exact absurd hs (by decide)
    · intro hmem
      have hs := (key "new").mp hmem
      rw [hv] at hs
      exact absurd hs (by decide)

def evInvalidW : Event :=
  { name := "checkout_started", status := "invalid", message := some "bad"
    implementation := some [{ path := "src/a.js", line := 10, code := none }]
    properties := some ["plan"] }

def rEventsW : ValidationResult :=
  { valid := some false
    summary := some { totalEvents := some 2, validEvents := some 0
                      invalidEvents := some 1, missingEvents := some 1
                      newEvents := some 0 }
    events := some
      [evInvalidW,
       { name := "page_view", status := "missing", message := none
         implementation := none, properties := none }]
    trackingPlanUpdated := some false
    metadata := none }

theorem claim_C9_witness :
    evInvalidW ∈ eventsOfStatus rEventsW "invalid" :=
  ((claim_C9 rEventsW evInvalidW (by decide)).1).mpr rfl
